import Mathlib

/-!
Verification development for the secure-mcp-gateway repository.

The definitions below are a shallow embedding of the Python source under
src/server/: configuration registry (config.py), upstream proxy engine
(mcp_proxy.py), aggregator (mcp_aggregator.py), JSON-RPC front end
(routes/mcp_protocol.py), client authenticator and token cache
(auth/mcp_client_auth.py), policy engine (policies/policy_engine.py),
audit logger (audit/logger.py) and the legacy REST user resolution
(routes/mcp_standard.py, auth.py).

Modelling conventions:
  - Python dicts keyed by strings are association lists; assignment is
    an upsert that keeps the first-insertion position, as CPython dicts do.
  - Upstream MCP servers and the Casbin enforcer are external collaborators;
    they enter as explicit function parameters (oracles).
  - JSON payloads that the gateway only moves around (tool parameters and
    tool results) are abstract strings; json.dumps on such an abstract
    payload is the identity.
  - Exceptions become Except values; an exception-free Python function whose
    handlers swallow all exceptions becomes a total Lean function.
-/

namespace SecureMcpGateway

/-! ## Python string primitives used by the gateway -/

/-- Splits a character list at every occurrence of the separator character,
keeping empty fragments, like Python str.split with an explicit separator. -/
def splitOnCharAux (sep : Char) : List Char → List Char → List (List Char)
  | [], acc => [acc.reverse]
  | c :: cs, acc =>
    if c = sep then acc.reverse :: splitOnCharAux sep cs []
    else splitOnCharAux sep cs (c :: acc)

/-- Python resource.split(":") - keeps empty fragments. -/
def pySplitColon (s : String) : List String :=
  (splitOnCharAux ':' s.toList []).map String.mk

/-- Python str.split() with no argument: split on whitespace runs and drop
empty fragments. The gateway only ever feeds it space-separated data, so
only the space character is treated as whitespace here. -/
def pySplit (s : String) : List String :=
  ((splitOnCharAux ' ' s.toList []).map String.mk).filter (fun x => x ≠ "")

/-- Python str.startswith. -/
def strStartsWith (s pre : String) : Bool :=
  pre.toList.isPrefixOf s.toList

/-- Python str.lower restricted to ASCII, which is all the gateway ever
lowers (the Bearer scheme word). -/
def pyLower (s : String) : String :=
  String.mk (s.toList.map (fun c => if 'A' ≤ c ∧ c ≤ 'Z' then Char.ofNat (c.toNat + 32) else c))

/-- Splits a character list at the first occurrence of the two-character
separator "__", like Python s.split("__", 1) when "__" occurs in s.
Returns none when "__" does not occur (Python "__" in s is False). -/
def splitFirstSep2 : List Char → Option (List Char × List Char)
  | [] => none
  | c :: cs =>
    if c = '_' ∧ cs.head? = some '_' then some ([], cs.tail)
    else
      match splitFirstSep2 cs with
      | some (l, r) => some (c :: l, r)
      | none => none

/-- Python name.split("__", 1) fused with the "__" in name membership test:
some (left, right) when "__" occurs, none otherwise. -/
def splitFirstDunder (s : String) : Option (String × String) :=
  match splitFirstSep2 s.toList with
  | some (l, r) => some (String.mk l, String.mk r)
  | none => none

/-- Fuel-bounded worker for Python str.replace(pat, "") removing every
non-overlapping occurrence of pat left to right. Fuel equal to the length
of the list is always sufficient because every step consumes at least one
character. -/
def replaceAllAux (pat : List Char) : Nat → List Char → List Char
  | _, [] => []
  | 0, l => l
  | fuel + 1, c :: cs =>
    if pat ≠ [] ∧ pat.isPrefixOf (c :: cs) then
      replaceAllAux pat fuel ((c :: cs).drop pat.length)
    else
      c :: replaceAllAux pat fuel cs

/-- Python s.replace(pat, ""). -/
def pyReplaceEmpty (s pat : String) : String :=
  String.mk (replaceAllAux pat.toList s.toList.length s.toList)

/-- Python repr of a list of strings, as produced by an f-string holding a
list value, e.g. f-string of a list gives a bracketed, quoted rendering. -/
def pyStrListRepr (l : List String) : String :=
  "[" ++ String.intercalate ", " (l.map (fun s => "\x27" ++ s ++ "\x27")) ++ "]"

/-! ## Association lists standing for Python dicts -/

/-- Python dict assignment d[k] = v: replace in place when the key exists,
append otherwise (CPython dicts keep first-insertion order). -/
def upsert {α : Type} (k : String) (v : α) : List (String × α) → List (String × α)
  | [] => [(k, v)]
  | p :: rest => if p.1 = k then (k, v) :: rest else p :: upsert k v rest

/-- The key list of an association list (Python dict keys, in order). -/
def keys {α : Type} (l : List (String × α)) : List String :=
  l.map Prod.fst

def exceptOk {ε α : Type} : Except ε α → Bool
  | .ok _ => true
  | .error _ => false

/-! ## Config store (src/server/config.py, class MCPServerConfig)

A configured upstream server entry from mcp_servers.yaml. The enabled
default of True is applied at construction time of the embedding. -/

structure ServerConfig where
  url : String
  enabled : Bool
  tags : List String
  tools : List String
deriving Repr, DecidableEq

abbrev MCPConfig := List (String × ServerConfig)

/-- MCPServerConfig.get_server. -/
def get_server (cfg : MCPConfig) (name : String) : Option ServerConfig :=
  (cfg.find? (fun p => p.1 = name)).map Prod.snd

/-- MCPServerConfig.get_enabled_servers. -/
def get_enabled_servers (cfg : MCPConfig) : MCPConfig :=
  cfg.filter (fun p => p.2.enabled)

/-- MCPServerConfig.get_servers_by_tags: enabled servers whose tag set meets
the given tags. -/
def get_servers_by_tags (cfg : MCPConfig) (tags : List String) : List String :=
  keys (cfg.filter (fun p => p.2.enabled && tags.any (fun t => p.2.tags.contains t)))

/-- MCPServerConfig.get_servers_with_tool: enabled servers whose declared
tools include the tool or the wildcard. -/
def get_servers_with_tool (cfg : MCPConfig) (tool : String) : List String :=
  keys (cfg.filter (fun p =>
    p.2.enabled && (p.2.tools.contains tool || p.2.tools.contains "*")))

/-! ## Audit events (src/server/audit/logger.py) -/

structure AuditEvent where
  event_type : String
  action : String
  status : String
deriving Repr, DecidableEq

/-! ## Upstream proxy (src/server/mcp_proxy.py, class MCPProxy)

Tool parameters and upstream results are abstract payload strings. The
upstream fleet is an oracle mapping (server, tool, parameters) to either a
result payload or the text of the exception the MCP client session raised. -/

abbrev Payload := String

abbrev Upstream := String → String → Payload → Except String Payload

/-- MCPProxy.invoke_tool (mcp_proxy.py lines 210-300): configuration and
enabled checks, the upstream call, the audit record, and the uniform
re-raise that makes every failure message start with
"Failed to invoke tool: ". -/
def invoke_tool (cfg : MCPConfig) (up : Upstream) (mcp_server tool_name : String)
    (parameters : Payload) : Except String Payload × List AuditEvent :=
  match get_server cfg mcp_server with
  | none =>
      (.error ("Failed to invoke tool: MCP server \x27" ++ mcp_server ++ "\x27 not configured"),
       [⟨"mcp_request", "invoke_tool", "error"⟩])
  | some sc =>
      if sc.enabled = false then
        (.error ("Failed to invoke tool: MCP server \x27" ++ mcp_server ++ "\x27 is disabled"),
         [⟨"mcp_request", "invoke_tool", "error"⟩])
      else
        match up mcp_server tool_name parameters with
        | .ok r => (.ok r, [⟨"mcp_request", "invoke_tool", "success"⟩])
        | .error e =>
            (.error ("Failed to invoke tool: " ++ e),
             [⟨"mcp_request", "invoke_tool", "error"⟩])

/-- Target selection of MCPProxy.invoke_tool_broadcast (lines 740-751).
Python truthiness: an explicit empty server list and an empty tag list both
fall through to the next selection stage. The explicit list is used
verbatim, with no filtering of any kind. -/
def broadcastTargets (cfg : MCPConfig) (tool_name : String)
    (mcp_servers : Option (List String)) (tags : Option (List String)) : List String :=
  match mcp_servers with
  | some (s :: ss) => s :: ss
  | _ =>
    match tags with
    | some (t :: ts) => get_servers_by_tags cfg (t :: ts)
    | _ =>
      let byTool := get_servers_with_tool cfg tool_name
      if byTool.isEmpty then keys (get_enabled_servers cfg) else byTool

/-- One iteration of the result-gathering loop of invoke_tool_broadcast
(lines 769-775): a success lands in the results dict, an exception text in
the errors dict, keyed by server name. -/
def classifyStep (f : String → Except String Payload)
    (acc : List (String × Payload) × List (String × String)) (s : String) :
    List (String × Payload) × List (String × String) :=
  match f s with
  | .ok v => (upsert s v acc.1, acc.2)
  | .error e => (acc.1, upsert s e acc.2)

/-- The result-gathering loop of invoke_tool_broadcast (lines 756-775):
one classification per target, successes and failures keyed by server name
in two dicts. -/
def classifyFold (f : String → Except String Payload) (targets : List String) :
    List (String × Payload) × List (String × String) :=
  targets.foldl (classifyStep f) ([], [])

structure BroadcastResult where
  tool_name : String
  total_servers : Nat
  successful : Nat
  failed : Nat
  results : List (String × Payload)
  errors : List (String × String)
deriving Repr, DecidableEq

/-- The audit records a fan-out run actually writes: one mcp_request per
attempted target, emitted inside invoke_tool during the gather loop of
lines 756-775. The broadcast-level record the call at lines 780-792
attempts to write is never logged, because that call itself raises (see
broadcastAuditTypeError). -/
def broadcastPerServerAudit (cfg : MCPConfig) (up : Upstream) (tool_name : String)
    (parameters : Payload) (targets : List String) : List AuditEvent :=
  targets.foldl (fun acc s => acc ++ (invoke_tool cfg up s tool_name parameters).2) []

/-- The exception text of the closing audit call of invoke_tool_broadcast
(mcp_proxy.py lines 780-792): the call passes the keyword argument
metadata, which AuditLogger.log_mcp_request (audit/logger.py lines 69-81)
does not accept - it also omits the required mcp_server parameter - so
CPython raises TypeError at the call site, before any broadcast-level
audit event is written and before the aggregate dict of lines 794-802 is
built. Rendered as CPython renders it. -/
def broadcastAuditTypeError : String :=
  "AuditLogger.log_mcp_request() got an unexpected keyword argument \x27metadata\x27"

/-- MCPProxy.invoke_tool_broadcast (lines 713-802). An empty target set
raises ValueError before any audit record is written; otherwise every
target is attempted through invoke_tool (the gather loop of lines
756-775, embedded as classifyFold, runs to the end and each attempt logs
its own mcp_request record), after which the closing audit call of lines
780-792 raises TypeError - log_mcp_request accepts no metadata keyword
and requires mcp_server - so the aggregate return of lines 794-802 is
unreachable and the function raises for every nonempty target set. -/
def invoke_tool_broadcast (cfg : MCPConfig) (up : Upstream) (tool_name : String)
    (parameters : Payload) (mcp_servers : Option (List String))
    (tags : Option (List String)) : Except String BroadcastResult × List AuditEvent :=
  if (broadcastTargets cfg tool_name mcp_servers tags).isEmpty then
    (.error "No MCP servers available for broadcast", [])
  else
    (.error broadcastAuditTypeError,
     broadcastPerServerAudit cfg up tool_name parameters
       (broadcastTargets cfg tool_name mcp_servers tags))

/-! ## Aggregator (src/server/mcp_aggregator.py, class MCPAggregatorServer)

Content parts returned to the MCP client. The source builds
TextContent(type="text", text=...) values. -/

structure TextContent where
  type : String
  text : String
deriving Repr, DecidableEq

/-- The arguments dict of a tools/call request, abstracted to the
projections the aggregator reads from it: the dict itself (forwarded
verbatim as parameters on the single-origin path), arguments.get("tool_name"),
arguments.get("arguments", default empty dict), and arguments.get("servers"). -/
structure ToolArguments where
  asParams : Payload
  tool_name : Option String
  arguments : Payload
  servers : Option (List String)
deriving Repr

/-- The single-origin branch of handle_call_tool (mcp_aggregator.py lines
216-239): invoke through the proxy, wrap success with json.dumps (identity
on abstract payloads; the pass-through of an upstream content list is
collapsed into the same text part), and turn any exception into a single
Error text part. -/
def call_single (cfg : MCPConfig) (up : Upstream) (name server_name tool_name : String)
    (args : ToolArguments) : List TextContent × List AuditEvent :=
  match invoke_tool cfg up server_name tool_name args.asParams with
  | (.ok r, evs) => ([⟨"text", r⟩], evs)
  | (.error e, evs) =>
      ([⟨"text", "Error: Failed to call tool " ++ name ++ ": " ++ e⟩], evs)

/-- _format_broadcast_results, condensed to its header line: the claims
never inspect the body of a successful broadcast rendering. -/
def format_broadcast_results (r : BroadcastResult) : String :=
  "BROADCAST RESULTS: " ++ r.tool_name

/-- MCPAggregatorServer handle of broadcast virtual tools (mcp_aggregator.py
lines 241-314). The tag path reads arguments.tool_name (Python falsy check,
so an absent and an empty tool_name both fail), selects enabled servers by
tag and forwards them as the explicit server list; the plain path strips
the broadcast prefix with str.replace and forwards the optional explicit
server list. Every exception becomes a single Error text part. -/
def handle_broadcast_tool (cfg : MCPConfig) (up : Upstream) (name : String)
    (args : ToolArguments) : List TextContent × List AuditEvent :=
  if strStartsWith name "broadcast__by_tag__" then
    let tag := pyReplaceEmpty name "broadcast__by_tag__"
    if args.tool_name.getD "" = "" then
      ([⟨"text", "Error: \x27tool_name\x27 is required for tag-based broadcast"⟩], [])
    else
      let target_servers :=
        keys ((get_enabled_servers cfg).filter (fun p => p.2.tags.contains tag))
      match invoke_tool_broadcast cfg up (args.tool_name.getD "") args.arguments
              (some target_servers) none with
      | (.ok r, evs) => ([⟨"text", format_broadcast_results r⟩], evs)
      | (.error e, evs) =>
          ([⟨"text", "Error: Broadcast failed for " ++ name ++ ": " ++ e⟩], evs)
  else
    match invoke_tool_broadcast cfg up (pyReplaceEmpty name "broadcast__") args.arguments
        args.servers none with
    | (.ok r, evs) => ([⟨"text", format_broadcast_results r⟩], evs)
    | (.error e, evs) =>
        ([⟨"text", "Error: Broadcast failed for " ++ name ++ ": " ++ e⟩], evs)

/-- MCPAggregatorServer.handle_call_tool (mcp_aggregator.py lines 190-239):
broadcast dispatch on the name, the "__" membership check, the split on
the first "__", and the catch-all that turns any exception into a single
Error text part. The policy engine does not appear here because the source
never consults it on this path. -/
def handle_call_tool (cfg : MCPConfig) (up : Upstream) (name : String)
    (args : ToolArguments) : List TextContent × List AuditEvent :=
  if strStartsWith name "broadcast__" then
    handle_broadcast_tool cfg up name args
  else
    match splitFirstDunder name with
    | none =>
        ([⟨"text", "Error: Invalid tool name format. Expected \x27server__tool\x27 or \x27broadcast__tool\x27, got \x27" ++ name ++ "\x27"⟩], [])
    | some (server_name, tool_name) =>
        call_single cfg up name server_name tool_name args

/-! ## Policy engine (src/server/policies/policy_engine.py, class PolicyEngine)

The Casbin enforcer is an external library; it enters as an oracle. A
compiled tool_name_pattern regex enters as the Boolean matching function
re.match gives on it (anchored at the start). -/

inductive RuleAction
  | allow
  | deny
deriving Repr, DecidableEq

structure RuleCondition where
  user : Option String
  action : Option String
  mcp_server : Option String
  tool_name_pattern : Option (String → Bool)

structure PolicyRule where
  name : String
  priority : Int
  action : RuleAction
  condition : RuleCondition

structure PolicyDoc where
  rules : List PolicyRule
  default_policy : String

/-- PolicyEngine._match_rule_condition (lines 171-204): every listed field
must match; a missing field means any; mcp_server is the second and the
tool name the third colon-separated segment of the resource. -/
def match_rule_condition (c : RuleCondition) (user resource action : String) : Bool :=
  (match c.user with
   | some u => u = user
   | none => true) &&
  (match c.action with
   | some a => a = action
   | none => true) &&
  (match c.mcp_server with
   | some m =>
       let parts := pySplitColon resource
       if parts.length ≥ 2 then m = parts.getD 1 "" else false
   | none => true) &&
  (match c.tool_name_pattern with
   | some p =>
       let parts := pySplitColon resource
       if parts.length ≥ 3 then p (parts.getD 2 "") else false
   | none => true)

/-- Stable insertion into a priority-descending list: a rule goes after all
rules of greater or equal priority, matching Python sorted(-, reverse=True)
which is stable. -/
def insertByPriorityDesc (r : PolicyRule) : List PolicyRule → List PolicyRule
  | [] => [r]
  | x :: xs =>
    if x.priority ≤ r.priority then r :: x :: xs
    else x :: insertByPriorityDesc r xs

/-- Python sorted(rules, key priority, reverse=True), a stable descending
sort. -/
def sortByPriorityDesc : List PolicyRule → List PolicyRule
  | [] => []
  | r :: rs => insertByPriorityDesc r (sortByPriorityDesc rs)

/-- First-match scan of PolicyEngine._check_custom_rules (lines 159-169). -/
def firstRuleMatch (user resource action : String) : List PolicyRule → Option (Bool × String)
  | [] => none
  | r :: rs =>
    if match_rule_condition r.condition user resource action then
      match r.action with
      | .deny => some (false, "denied by rule: " ++ r.name)
      | .allow => some (true, "allowed by rule: " ++ r.name)
    else firstRuleMatch user resource action rs

/-- PolicyEngine._check_custom_rules (lines 147-169). -/
def check_custom_rules (rules : List PolicyRule) (user resource action : String) :
    Option (Bool × String) :=
  firstRuleMatch user resource action (sortByPriorityDesc rules)

/-- PolicyEngine.check_permission (lines 111-145): ordered rules first, then
the Casbin user check, then the groups, then the default policy. -/
def check_permission (policy : PolicyDoc) (enforce : String → String → String → Bool)
    (user resource action : String) (groups : List String) : Bool × String :=
  match check_custom_rules policy.rules user resource action with
  | some res => res
  | none =>
    if enforce user resource action then (true, "allowed by user permission")
    else
      match groups.find? (fun g => enforce g resource action) with
      | some g => (true, "allowed by group permission: " ++ g)
      | none =>
        if policy.default_policy = "allow" then (true, "allowed by default policy")
        else (false, "denied by default policy")

/-! ## Client authenticator and token cache
(src/server/auth/mcp_client_auth.py, class MCPClientAuthenticator)

Time is epoch seconds as a natural number. A presented bearer token is
abstracted to the facts the validator inspects: whether a JWKS key matches
its kid, whether the signature verifies, its exp, iss, aud and scope
claims, and the decoded payload (an abstract claim-set string). -/

structure HTTPError where
  status_code : Nat
  detail : String
deriving Repr, DecidableEq

structure TokenInfo where
  token : String
  kid_found : Bool
  sig_valid : Bool
  exp : Nat
  iss : String
  aud : List String
  scope : String
  claims : String
deriving Repr, DecidableEq

/-- The accepted-issuer set, accepted-audience set and required-scope list
the authenticator computes in its constructor (mcp_client_auth.py lines
48-67). -/
structure AuthCfg where
  valid_issuers : List String
  accepted_audiences : List String
  required_scopes : List String
deriving Repr

/-- The missing-scope computation of validate_jwt_token lines 216-217. -/
def missingScopes (a : AuthCfg) (t : TokenInfo) : List String :=
  let token_scopes := pySplit t.scope
  a.required_scopes.filter (fun s => (token_scopes.contains s) = false)

/-- The uncached body of MCPClientAuthenticator.validate_jwt_token (lines
129-232): kid lookup, signature and expiry verification by jwt.decode,
manual issuer check, manual audience check (absent audience accepted),
then the required-scope check. Error details other than the missing-scope
message are condensed; the claims never inspect them. -/
def validate_jwt_token_at (a : AuthCfg) (now : Nat) (t : TokenInfo) :
    Except HTTPError String :=
  if t.kid_found = false then
    .error ⟨401, "Unable to find appropriate key for token validation"⟩
  else if (t.sig_valid && decide (now < t.exp)) = false then
    .error ⟨401, "Invalid token: signature or expiry verification failed"⟩
  else if (a.valid_issuers.contains t.iss) = false then
    .error ⟨401, "Invalid issuer. Token is not from a trusted authorization server."⟩
  else if (t.aud.isEmpty || t.aud.any (fun x => a.accepted_audiences.contains x)) = false then
    .error ⟨401, "Invalid audience. Token is not intended for this resource."⟩
  else if (missingScopes a t).isEmpty = false then
    .error ⟨403, "Token missing required scopes: " ++ pyStrListRepr (missingScopes a t)⟩
  else
    .ok t.claims

/-- One entry of the module-level token_cache, a cachetools TTLCache with a
single fixed ttl for every entry (mcp_client_auth.py line 28). -/
structure CacheEntry where
  key : String
  value : String
  inserted_at : Nat
deriving Repr, DecidableEq

/-- TTLCache lookup: an entry answers until the fixed ttl after its
insertion has elapsed. Nothing about the cached token itself is
re-examined. -/
def cache_lookup (ttl now : Nat) (cache : List CacheEntry) (key : String) :
    Option String :=
  match cache.find? (fun e => e.key = key) with
  | some e => if now < e.inserted_at + ttl then some e.value else none
  | none => none

/-- MCPClientAuthenticator.validate_jwt_token with its cache interaction
(lines 123-127 and 227): a cache hit returns the cached claim set
immediately; a miss runs the validation and inserts the verified claims
under the fixed configured ttl. Eviction by maxsize is not modelled. -/
def validate_jwt_token (a : AuthCfg) (ttl now : Nat) (cache : List CacheEntry)
    (t : TokenInfo) : Except HTTPError String × List CacheEntry :=
  match cache_lookup ttl now cache ("jwt:" ++ t.token) with
  | some v => (.ok v, cache)
  | none =>
    match validate_jwt_token_at a now t with
    | .ok claims => (.ok claims, ⟨"jwt:" ++ t.token, claims, now⟩ :: cache)
    | .error e => (.error e, cache)

/-- MCPClientAuthenticator.authenticate_request (lines 309-355): missing
header, malformed header, then JWT validation with the status code of the
validation failure preserved on the re-raise. The tokens oracle maps a raw
bearer string to the token facts the validator sees. -/
def authenticate_request (a : AuthCfg) (ttl now : Nat) (cache : List CacheEntry)
    (tokens : String → TokenInfo) (authorization : Option String) :
    Except HTTPError String × List CacheEntry :=
  match authorization with
  | none => (.error ⟨401, "Bearer token required"⟩, cache)
  | some h =>
    let parts := pySplit h
    if (decide (parts.length = 2) && (pyLower (parts.getD 0 "") = "bearer")) = false then
      (.error ⟨401, "Invalid Authorization header format. Expected: Bearer <token>"⟩, cache)
    else
      validate_jwt_token a ttl now cache (tokens (parts.getD 1 ""))

/-! ## JSON-RPC front end (src/server/routes/mcp_protocol.py, mcp_endpoint)

The request body is either unparseable JSON (request.json() raised, the
exception text kept) or a parsed envelope carrying the optional method and
id. Result bodies of the individual handlers are abstracted to a tag naming
the handler that produced them; the aggregator behind tools/list and
tools/call is modelled in its own section above. -/

inductive RequestBody
  | invalid (errMsg : String)
  | valid (method : Option String) (id : Option Nat)
deriving Repr, DecidableEq

inductive McpResponse
  | rpcResult (id : Option Nat) (tag : String)
  | rpcError (id : Option Nat) (code : Int) (message : String)
  | ack
  | oauthChallenge (error : String) (error_description : String)
deriving Repr, DecidableEq

/-- The HTTP status each response shape is sent with: JSON-RPC results,
JSON-RPC errors and the empty ack all go out as 200; only
build_oauth_error_response produces a 401 (mcp_client_auth.py lines
303-307). -/
def McpResponse.httpStatus : McpResponse → Nat
  | .oauthChallenge _ _ => 401
  | _ => 200

def McpResponse.isChallenge : McpResponse → Bool
  | .oauthChallenge _ _ => true
  | _ => false

/-- Python f-string rendering of the possibly absent method name. -/
def pyShowMethod : Option String → String
  | some m => m
  | none => "None"

/-- The method dispatch chain of mcp_endpoint (lines 151-298), run after
the authentication gate. -/
def mcp_dispatch (method : Option String) (id : Option Nat) (is_notif : Bool) :
    McpResponse :=
  if method = some "initialize" then .rpcResult id "initialize"
  else if method = some "tools/list" then .rpcResult id "tools/list"
  else if method = some "tools/call" then .rpcResult id "tools/call"
  else if method = some "resources/list" then .rpcResult id "resources/list"
  else if method = some "resources/read" then .rpcResult id "resources/read"
  else if method = some "prompts/list" then .rpcResult id "prompts/list"
  else if method = some "prompts/get" then .rpcResult id "prompts/get"
  else if is_notif then .ack
  else .rpcError id (-32601) ("Method not found: " ++ pyShowMethod method)

/-- The is_notification test of mcp_endpoint line 127: Python
method and method.startswith, which is falsy for an absent method. -/
def requestIsNotif (method : Option String) : Bool :=
  match method with
  | some m => strStartsWith m "notifications/"
  | none => false

/-- POST /mcp (mcp_protocol.py lines 112-322): parse, authentication gate
with the initialize and notification bypass (lines 126-148), dispatch, and
the catch-all that turns any exception - a JSON parse failure included -
into a JSON-RPC error with code -32603 carried in a 200 response (lines
310-322). Every authentication failure is converted by
build_oauth_error_response into the 401 challenge, whatever status code the
authenticator raised. -/
def mcp_endpoint (a : AuthCfg) (auth_enabled : Bool) (ttl now : Nat)
    (cache : List CacheEntry) (tokens : String → TokenInfo)
    (body : RequestBody) (authorization : Option String) : McpResponse :=
  match body with
  | .invalid errMsg => .rpcError none (-32603) errMsg
  | .valid method id =>
    if auth_enabled && !(method = some "initialize" : Bool) && !(requestIsNotif method) then
      match (authenticate_request a ttl now cache tokens authorization).1 with
      | .error e => .oauthChallenge "invalid_token" e.detail
      | .ok _ => mcp_dispatch method id (requestIsNotif method)
    else
      mcp_dispatch method id (requestIsNotif method)

/-! ## Legacy REST user resolution
(src/server/routes/mcp_standard.py get_user_conditional,
src/server/auth.py get_optional_user and get_current_user)

Credentials are the bearer token extracted by HTTPBearer(auto_error=False):
none when the header is absent or not Bearer-shaped. Token validation on
the legacy path is an oracle from the token string to claims or a 401. -/

structure LegacyUser where
  sub : String
  preferred_username : String
  roles : List String
  groups : List String
deriving Repr, DecidableEq

/-- auth.py get_current_user (lines 196-239): with auth disabled a default
user is returned without looking at the token; otherwise the token is
validated and the claims mapped to a user. The claim extraction is the
validate oracle composed with the field mapping, abstracted to a LegacyUser
result. -/
def get_current_user (auth_enabled : Bool)
    (validate : String → Except HTTPError LegacyUser) (credentials : String) :
    Except HTTPError LegacyUser :=
  if auth_enabled = false then
    .ok ⟨"anonymous", "anonymous", ["user"], []⟩
  else
    validate credentials

/-- auth.py get_optional_user (lines 242-258): none without credentials,
get_current_user otherwise. -/
def get_optional_user (auth_enabled : Bool)
    (validate : String → Except HTTPError LegacyUser)
    (credentials : Option String) : Except HTTPError (Option LegacyUser) :=
  match credentials with
  | none => .ok none
  | some c =>
    match get_current_user auth_enabled validate c with
    | .ok u => .ok (some u)
    | .error e => .error e

/-- mcp_standard.py get_user_conditional (lines 27-43): with auth disabled
every request becomes the anonymous admin subject, whatever the resolved
user was; with auth enabled a missing user is a 401. -/
def get_user_conditional (auth_enabled : Bool) (user : Option LegacyUser) :
    Except HTTPError LegacyUser :=
  if auth_enabled = false then
    .ok ⟨"anonymous", "anonymous", ["admin"], []⟩
  else
    match user with
    | none => .error ⟨401, "Authentication required"⟩
    | some u => .ok u

/-- The full dependency pipeline of GET /tools and POST /tools/name/invoke:
get_optional_user feeding get_user_conditional. -/
def resolve_legacy_user (auth_enabled : Bool)
    (validate : String → Except HTTPError LegacyUser)
    (credentials : Option String) : Except HTTPError LegacyUser :=
  match get_optional_user auth_enabled validate credentials with
  | .error e => .error e
  | .ok u => get_user_conditional auth_enabled u

/-! ## Concrete sample values used by counterexamples and witnesses -/

def authCfg0 : AuthCfg := ⟨["http://issuer"], ["aud1"], ["mcp:tools"]⟩

def token0 : TokenInfo :=
  ⟨"tok", true, true, 100, "http://issuer", [], "openid profile", "claims0"⟩

def tokens0 : String → TokenInfo := fun _ => token0

def authCfg3 : AuthCfg := ⟨["http://issuer"], [], ["mcp:tools"]⟩

def token3 : TokenInfo := ⟨"tok3", true, true, 11, "http://issuer", [], "mcp:tools", "claimsA"⟩

def denyPolicy : PolicyDoc :=
  ⟨[⟨"deny-admin-tools", 100, .deny,
     ⟨none, none, none, some (fun s => strStartsWith s "admin_")⟩⟩],
   "allow"⟩

def cfgC1 : MCPConfig := [("myserver", ⟨"http://myserver", true, [], ["admin_reset"]⟩)]

def upC1 : Upstream := fun _ _ _ => .ok "admin reset done"

def argsC1 : ToolArguments := ⟨"params", none, "", none⟩

def cfgC6 : MCPConfig := [("broadcast", ⟨"http://b", true, [], ["by_tag__x"]⟩)]

def upC6 : Upstream := fun s t _ => .ok ("called " ++ s ++ " " ++ t)

def argsC6 : ToolArguments := ⟨"p", none, "", none⟩

def cfgC8 : MCPConfig := [("d", ⟨"http://d", false, [], ["t"]⟩)]

def cfgC5 : MCPConfig :=
  [("a", ⟨"http://a", true, [], ["t"]⟩), ("b", ⟨"http://b", true, [], ["t"]⟩)]

def upC5 : Upstream := fun s _ _ => if s = "a" then .ok "ra" else .error "boom"

/-! ## Helper lemmas -/

theorem strStartsWith_append (s t p : String) (h : strStartsWith s p = true) :
    strStartsWith (s ++ t) p = true := by
  unfold strStartsWith at h ⊢
  rw [List.isPrefixOf_iff_prefix] at h ⊢
  have : s.toList <+: (s ++ t).toList := by
    show s.data <+: (s ++ t).data
    rw [String.data_append]
    exact List.prefix_append s.data t.data
  exact h.trans this

theorem keys_upsert {α : Type} (k : String) (v : α) (l : List (String × α)) :
    keys (upsert k v l) = if k ∈ keys l then keys l else keys l ++ [k] := by
  induction l with
  | nil => simp [upsert, keys]
  | cons p rest ih =>
    by_cases h : p.1 = k
    · simp [upsert, keys, h]
    · have hmem : (k ∈ keys (p :: rest)) = (k ∈ keys rest) := by
        simp [keys, List.mem_cons, Ne.symm h]
      simp only [upsert, if_neg h, keys, List.map_cons] at ih ⊢
      rw [ih]
      by_cases hk : k ∈ keys rest
      · simp [keys] at hk
        simp [hk, Ne.symm h]
      · simp [keys] at hk
        simp [hk, Ne.symm h]

theorem mem_keys_upsert {α : Type} (k k' : String) (v : α) (l : List (String × α)) :
    (k' ∈ keys (upsert k v l)) ↔ (k' ∈ keys l ∨ k' = k) := by
  rw [keys_upsert]
  by_cases h : k ∈ keys l
  · rw [if_pos h]
    constructor
    · exact Or.inl
    · rintro (hl | rfl)
      · exact hl
      · exact h
  · rw [if_neg h]
    simp [List.mem_append]

theorem nodup_keys_upsert {α : Type} (k : String) (v : α) (l : List (String × α))
    (h : (keys l).Nodup) : (keys (upsert k v l)).Nodup := by
  rw [keys_upsert]
  by_cases hk : k ∈ keys l
  · rw [if_pos hk]; exact h
  · rw [if_neg hk]
    refine List.nodup_append.mpr ⟨h, List.nodup_singleton k, ?_⟩
    intro a ha hb
    rw [List.mem_singleton] at hb
    subst hb
    exact hk ha

theorem classifyFold_go (f : String → Except String Payload) :
    ∀ (ts : List String) (acc : List (String × Payload) × List (String × String))
      (seen : List String),
      (keys acc.1).Nodup → (keys acc.2).Nodup →
      (∀ k, k ∈ keys acc.1 ↔ (k ∈ seen ∧ exceptOk (f k) = true)) →
      (∀ k, k ∈ keys acc.2 ↔ (k ∈ seen ∧ exceptOk (f k) = false)) →
      (keys (ts.foldl (classifyStep f) acc).1).Nodup ∧
      (keys (ts.foldl (classifyStep f) acc).2).Nodup ∧
      (∀ k, k ∈ keys (ts.foldl (classifyStep f) acc).1 ↔
        (k ∈ seen ++ ts ∧ exceptOk (f k) = true)) ∧
      (∀ k, k ∈ keys (ts.foldl (classifyStep f) acc).2 ↔
        (k ∈ seen ++ ts ∧ exceptOk (f k) = false)) := by
  intro ts
  induction ts with
  | nil =>
    intro acc seen hr he hmr hme
    simpa using ⟨hr, he, hmr, hme⟩
  | cons s rest ih =>
    intro acc seen hr he hmr hme
    rw [List.foldl_cons, List.append_cons seen s rest]
    cases hfs : f s with
    | ok v =>
      have hstep : classifyStep f acc s = (upsert s v acc.1, acc.2) := by
        simp [classifyStep, hfs]
      rw [hstep]
      refine ih _ (seen ++ [s]) (nodup_keys_upsert s v acc.1 hr) he ?_ ?_
      · intro k
        rw [mem_keys_upsert, hmr k]
        constructor
        · rintro (⟨hks, hok⟩ | rfl)
          · exact ⟨List.mem_append_left _ hks, hok⟩
          · exact ⟨List.mem_append_right _ (List.mem_singleton.mpr rfl), by simp [exceptOk, hfs]⟩
        · rintro ⟨hks, hok⟩
          rcases List.mem_append.mp hks with hl | hrr
          · exact Or.inl ⟨hl, hok⟩
          · exact Or.inr (List.mem_singleton.mp hrr)
      · intro k
        rw [hme k]
        constructor
        · rintro ⟨hks, hok⟩
          exact ⟨List.mem_append_left _ hks, hok⟩
        · rintro ⟨hks, hok⟩
          rcases List.mem_append.mp hks with hl | hrr
          · exact ⟨hl, hok⟩
          · exfalso
            rw [List.mem_singleton.mp hrr] at hok
            simp [exceptOk, hfs] at hok
    | error e =>
      have hstep : classifyStep f acc s = (acc.1, upsert s e acc.2) := by
        simp [classifyStep, hfs]
      rw [hstep]
      refine ih _ (seen ++ [s]) hr (nodup_keys_upsert s e acc.2 he) ?_ ?_
      · intro k
        rw [hmr k]
        constructor
        · rintro ⟨hks, hok⟩
          exact ⟨List.mem_append_left _ hks, hok⟩
        · rintro ⟨hks, hok⟩
          rcases List.mem_append.mp hks with hl | hrr
          · exact ⟨hl, hok⟩
          · exfalso
            rw [List.mem_singleton.mp hrr] at hok
            simp [exceptOk, hfs] at hok
      · intro k
        rw [mem_keys_upsert, hme k]
        constructor
        · rintro (⟨hks, hok⟩ | rfl)
          · exact ⟨List.mem_append_left _ hks, hok⟩
          · exact ⟨List.mem_append_right _ (List.mem_singleton.mpr rfl), by simp [exceptOk, hfs]⟩
        · rintro ⟨hks, hok⟩
          rcases List.mem_append.mp hks with hl | hrr
          · exact Or.inl ⟨hl, hok⟩
          · exact Or.inr (List.mem_singleton.mp hrr)

theorem classifyFold_spec (f : String → Except String Payload) (targets : List String) :
    (keys (classifyFold f targets).1).Nodup ∧
    (keys (classifyFold f targets).2).Nodup ∧
    (∀ k, k ∈ keys (classifyFold f targets).1 ↔ (k ∈ targets ∧ exceptOk (f k) = true)) ∧
    (∀ k, k ∈ keys (classifyFold f targets).2 ↔ (k ∈ targets ∧ exceptOk (f k) = false)) := by
  have h := classifyFold_go f targets ([], []) []
    (by simp [keys]) (by simp [keys]) (by simp [keys]) (by simp [keys])
  simpa [classifyFold] using h

theorem invoke_tool_error_of_not_configured (cfg : MCPConfig) (up : Upstream)
    (d tl : String) (p : Payload) (h : get_server cfg d = none) :
    (invoke_tool cfg up d tl p).1
      = .error ("Failed to invoke tool: MCP server \x27" ++ d ++ "\x27 not configured") := by
  unfold invoke_tool
  rw [h]

theorem invoke_tool_error_of_disabled (cfg : MCPConfig) (up : Upstream)
    (d tl : String) (p : Payload) (sc : ServerConfig)
    (hs : get_server cfg d = some sc) (hd : sc.enabled = false) :
    (invoke_tool cfg up d tl p).1
      = .error ("Failed to invoke tool: MCP server \x27" ++ d ++ "\x27 is disabled") := by
  unfold invoke_tool
  rw [hs]
  simp [hd]

theorem splitFirstSep2_append (T : List Char) : ∀ (S : List Char),
    splitFirstSep2 S = none → S.getLast? ≠ some '_' →
    splitFirstSep2 (S ++ '_' :: '_' :: T) = some (S, T) := by
  intro S
  induction S with
  | nil =>
    intro _ _
    simp [splitFirstSep2]
  | cons c cs ih =>
    intro h1 h2
    have hnp : ¬ (c = '_' ∧ cs.head? = some '_') := by
      intro ⟨hc, hh⟩
      cases cs with
      | nil => simp at hh
      | cons d ds =>
        simp at hh
        rw [hc, hh] at h1
        simp [splitFirstSep2] at h1
    have htail : splitFirstSep2 cs = none := by
      unfold splitFirstSep2 at h1
      rw [if_neg hnp] at h1
      cases hcs : splitFirstSep2 cs with
      | none => rfl
      | some p => rw [hcs] at h1; cases p; simp at h1
    have hlast : cs.getLast? ≠ some '_' := by
      cases cs with
      | nil => simp
      | cons d ds =>
        rw [List.getLast?_cons_cons] at h2
        exact h2
    have hnp2 : ¬ (c = '_' ∧ (cs ++ '_' :: '_' :: T).head? = some '_') := by
      intro ⟨hc, hh⟩
      cases cs with
      | nil =>
        rw [hc] at h2
        simp at h2
      | cons d ds =>
        simp at hh
        exact hnp ⟨hc, by simp [hh]⟩
    show splitFirstSep2 (c :: (cs ++ '_' :: '_' :: T)) = some (c :: cs, T)
    unfold splitFirstSep2
    rw [if_neg hnp2, ih htail hlast]

/-! ## Claim theorems -/

theorem mcp_dispatch_notif (m : String) (id : Option Nat)
    (h : strStartsWith m "notifications/" = true) :
    mcp_dispatch (some m) id true = .ack := by
  have hne : ∀ x : String, strStartsWith x "notifications/" = false → ¬ (some m = some x) := by
    intro x hx he
    rw [Option.some.injEq] at he
    subst he
    rw [h] at hx
    simp at hx
  unfold mcp_dispatch
  rw [if_neg (hne "initialize" (by decide)), if_neg (hne "tools/list" (by decide)),
      if_neg (hne "tools/call" (by decide)), if_neg (hne "resources/list" (by decide)),
      if_neg (hne "resources/read" (by decide)), if_neg (hne "prompts/list" (by decide)),
      if_neg (hne "prompts/get" (by decide)), if_pos rfl]

theorem mcp_endpoint_valid (a : AuthCfg) (auth_enabled : Bool) (ttl now : Nat)
    (cache : List CacheEntry) (tokens : String → TokenInfo)
    (method : Option String) (id : Option Nat) (authorization : Option String) :
    mcp_endpoint a auth_enabled ttl now cache tokens (.valid method id) authorization
      = if auth_enabled && !(method = some "initialize" : Bool) && !(requestIsNotif method) then
          match (authenticate_request a ttl now cache tokens authorization).1 with
          | .error e => .oauthChallenge "invalid_token" e.detail
          | .ok _ => mcp_dispatch method id (requestIsNotif method)
        else mcp_dispatch method id (requestIsNotif method) := rfl

/-- C2: with authentication enabled, a POST /mcp request carrying no valid
bearer is processed if and only if its method is initialize or starts with
notifications/; every other method gets the 401 OAuth challenge instead of
its handler. -/
theorem c2_auth_bypass_iff (a : AuthCfg) (ttl now : Nat) (cache : List CacheEntry)
    (tokens : String → TokenInfo) (authorization : Option String)
    (m : String) (id : Option Nat)
    (hfail : ∃ e, (authenticate_request a ttl now cache tokens authorization).1 = .error e) :
    ((mcp_endpoint a true ttl now cache tokens (.valid (some m) id) authorization).isChallenge
        = false
      ↔ (m = "initialize" ∨ strStartsWith m "notifications/" = true)) ∧
    (m = "initialize" →
      mcp_endpoint a true ttl now cache tokens (.valid (some m) id) authorization
        = .rpcResult id "initialize") ∧
    (strStartsWith m "notifications/" = true →
      mcp_endpoint a true ttl now cache tokens (.valid (some m) id) authorization = .ack) := by
  obtain ⟨e, he⟩ := hfail
  by_cases hm : m = "initialize"
  · subst hm
    exact ⟨⟨fun _ => Or.inl rfl, fun _ => rfl⟩, fun _ => rfl, fun hn => absurd hn (by decide)⟩
  · by_cases hn : strStartsWith m "notifications/" = true
    · have hend : mcp_endpoint a true ttl now cache tokens (.valid (some m) id) authorization
          = mcp_dispatch (some m) id true := by
        rw [mcp_endpoint_valid]
        have h1 : requestIsNotif (some m) = true := hn
        rw [h1]
        simp
      rw [hend, mcp_dispatch_notif m id hn]
      exact ⟨⟨fun _ => Or.inr hn, fun _ => rfl⟩, fun hm2 => absurd hm2 hm, fun _ => rfl⟩
    · have hnb : strStartsWith m "notifications/" = false := by
        cases hsw : strStartsWith m "notifications/" with
        | true => exact absurd hsw hn
        | false => rfl
      have hend : mcp_endpoint a true ttl now cache tokens (.valid (some m) id) authorization
          = .oauthChallenge "invalid_token" e.detail := by
        rw [mcp_endpoint_valid]
        have h1 : requestIsNotif (some m) = false := hnb
        rw [h1, he]
        simp [hm]
      rw [hend]
      refine ⟨⟨fun hc => by simp [McpResponse.isChallenge] at hc, ?_⟩,
        fun hm2 => absurd hm2 hm, fun hn2 => absurd hn2 hn⟩
      rintro (hm2 | hn2)
      · exact absurd hm2 hm
      · exact absurd hn2 hn

/-- C2 witness: the deny side and the bypass characterization at a concrete
request - method tools/list, no Authorization header, auth enabled. -/
theorem c2_auth_bypass_iff_witness :
    ((mcp_endpoint authCfg0 true 300 0 [] tokens0
        (.valid (some "tools/list") (some 1)) none).isChallenge = false
      ↔ ("tools/list" = "initialize" ∨ strStartsWith "tools/list" "notifications/" = true)) ∧
    ("tools/list" = "initialize" →
      mcp_endpoint authCfg0 true 300 0 [] tokens0 (.valid (some "tools/list") (some 1)) none
        = .rpcResult (some 1) "initialize") ∧
    (strStartsWith "tools/list" "notifications/" = true →
      mcp_endpoint authCfg0 true 300 0 [] tokens0 (.valid (some "tools/list") (some 1)) none
        = .ack) :=
  c2_auth_bypass_iff authCfg0 300 0 [] tokens0 none "tools/list" (some 1)
    ⟨⟨401, "Bearer token required"⟩, rfl⟩

/-- C4 counterexample: a JWT that passes signature, issuer and audience
validation but lacks the required scope mcp:tools is answered by the
gateway with the 401 OAuth challenge, not with status 403 as the claim
states - the challenge description does name the missing scopes. -/
theorem c4_counterexample :
    mcp_endpoint authCfg0 true 300 0 [] tokens0 (.valid (some "tools/list") (some 1))
        (some "Bearer tok")
      = .oauthChallenge "invalid_token" "Token missing required scopes: [\x27mcp:tools\x27]" ∧
    (mcp_endpoint authCfg0 true 300 0 [] tokens0 (.valid (some "tools/list") (some 1))
        (some "Bearer tok")).httpStatus = 401 ∧
    (401 : Nat) ≠ 403 :=
  ⟨rfl, rfl, by decide⟩

/-- C4 amended: the authenticator raises 403 naming the missing required
scopes when signature, issuer and audience checks pass but a required
scope is absent, and 401 for key, signature, issuer or audience failures;
the POST /mcp front end however converts every authentication failure into
the 401 OAuth challenge response, carrying the failure detail in its
description, so the HTTP status the client sees is 401 in both cases. -/
theorem c4_amended (a : AuthCfg) (now : Nat) (t : TokenInfo) :
    (t.kid_found = true → (t.sig_valid && decide (now < t.exp)) = true →
     a.valid_issuers.contains t.iss = true →
     (t.aud.isEmpty || t.aud.any fun x => a.accepted_audiences.contains x) = true →
     missingScopes a t ≠ [] →
     validate_jwt_token_at a now t
       = .error ⟨403, "Token missing required scopes: " ++ pyStrListRepr (missingScopes a t)⟩) ∧
    (t.kid_found = false → validate_jwt_token_at a now t
       = .error ⟨401, "Unable to find appropriate key for token validation"⟩) ∧
    (t.kid_found = true → (t.sig_valid && decide (now < t.exp)) = false →
     validate_jwt_token_at a now t
       = .error ⟨401, "Invalid token: signature or expiry verification failed"⟩) ∧
    (t.kid_found = true → (t.sig_valid && decide (now < t.exp)) = true →
     a.valid_issuers.contains t.iss = false →
     validate_jwt_token_at a now t
       = .error ⟨401, "Invalid issuer. Token is not from a trusted authorization server."⟩) ∧
    (t.kid_found = true → (t.sig_valid && decide (now < t.exp)) = true →
     a.valid_issuers.contains t.iss = true →
     (t.aud.isEmpty || t.aud.any fun x => a.accepted_audiences.contains x) = false →
     validate_jwt_token_at a now t
       = .error ⟨401, "Invalid audience. Token is not intended for this resource."⟩) ∧
    (∀ (ttl : Nat) (cache : List CacheEntry) (tokens : String → TokenInfo)
       (authorization : Option String) (m : String) (id : Option Nat) (e : HTTPError),
       (authenticate_request a ttl now cache tokens authorization).1 = .error e →
       m ≠ "initialize" → strStartsWith m "notifications/" = false →
       mcp_endpoint a true ttl now cache tokens (.valid (some m) id) authorization
         = .oauthChallenge "invalid_token" e.detail ∧
       (mcp_endpoint a true ttl now cache tokens (.valid (some m) id) authorization).httpStatus
         = 401) := by
  refine ⟨?_, ?_, ?_, ?_, ?_, ?_⟩
  · intro hk hsig hiss haud hmiss
    have hie : (missingScopes a t).isEmpty = false := by
      cases hcase : missingScopes a t with
      | nil => exact absurd hcase hmiss
      | cons x xs => rw [List.isEmpty_cons]
    unfold validate_jwt_token_at
    rw [if_neg (by rw [hk]; decide), if_neg (by rw [hsig]; decide),
      if_neg (by rw [hiss]; decide), if_neg (by rw [haud]; decide), if_pos hie]
  · intro hk
    unfold validate_jwt_token_at
    rw [if_pos hk]
  · intro hk hsig
    unfold validate_jwt_token_at
    rw [if_neg (by rw [hk]; decide), if_pos hsig]
  · intro hk hsig hiss
    unfold validate_jwt_token_at
    rw [if_neg (by rw [hk]; decide), if_neg (by rw [hsig]; decide), if_pos hiss]
  · intro hk hsig hiss haud
    unfold validate_jwt_token_at
    rw [if_neg (by rw [hk]; decide), if_neg (by rw [hsig]; decide),
      if_neg (by rw [hiss]; decide), if_pos haud]
  · intro ttl cache tokens authorization m id e he hm hn
    have hend : mcp_endpoint a true ttl now cache tokens (.valid (some m) id) authorization
        = .oauthChallenge "invalid_token" e.detail := by
      rw [mcp_endpoint_valid]
      have h1 : requestIsNotif (some m) = false := hn
      rw [h1, he]
      simp [hm]
    exact ⟨hend, by rw [hend]; rfl⟩

/-- C4 amended witness: the front-end conjunct of the amended claim applied
at the concrete missing-scope token of the counterexample. -/
theorem c4_amended_witness :
    mcp_endpoint authCfg0 true 300 0 [] tokens0 (.valid (some "tools/list") (some 1))
        (some "Bearer tok")
      = .oauthChallenge "invalid_token" "Token missing required scopes: [\x27mcp:tools\x27]" ∧
    (mcp_endpoint authCfg0 true 300 0 [] tokens0 (.valid (some "tools/list") (some 1))
        (some "Bearer tok")).httpStatus = 401 :=
  (c4_amended authCfg0 0 token0).2.2.2.2.2 300 [] tokens0 (some "Bearer tok") "tools/list"
    (some 1) ⟨403, "Token missing required scopes: [\x27mcp:tools\x27]"⟩
    rfl (by decide) (by decide)

/-- C10: on the legacy REST surface, whenever auth_enabled is false every
request - regardless of any Authorization header - is attributed to the
subject anonymous with roles admin and empty groups; whenever auth_enabled
is true and no credentials resolve to a user, the request fails with 401. -/
theorem c10_legacy_anonymous_admin :
    (∀ (validate : String → Except HTTPError LegacyUser) (credentials : Option String),
       resolve_legacy_user false validate credentials
         = .ok ⟨"anonymous", "anonymous", ["admin"], []⟩) ∧
    (∀ (validate : String → Except HTTPError LegacyUser),
       resolve_legacy_user true validate none = .error ⟨401, "Authentication required"⟩) := by
  constructor
  · intro validate credentials
    cases credentials with
    | none => rfl
    | some c => rfl
  · intro validate
    rfl

/-- C7 counterexample: a POST /mcp body that is not valid JSON is answered
with JSON-RPC error code -32603 (the catch-all internal error), not the
parse-error code -32700 the claim states. -/
theorem c7_counterexample :
    mcp_endpoint ⟨[], [], []⟩ true 300 0 [] tokens0
        (.invalid "Expecting value: line 1 column 1 (char 0)") none
      = .rpcError none (-32603) "Expecting value: line 1 column 1 (char 0)" ∧
    (∀ id msg, mcp_endpoint ⟨[], [], []⟩ true 300 0 [] tokens0
        (.invalid "Expecting value: line 1 column 1 (char 0)") none
      ≠ .rpcError id (-32700) msg) := by
  refine ⟨rfl, ?_⟩
  intro id msg h
  rw [show mcp_endpoint ⟨[], [], []⟩ true 300 0 [] tokens0
        (.invalid "Expecting value: line 1 column 1 (char 0)") none
      = .rpcError none (-32603) "Expecting value: line 1 column 1 (char 0)" from rfl] at h
  injection h with h1 h2 h3
  exact absurd h2 (by decide)

/-- C7 amended: for every POST /mcp request whose body is not valid JSON,
the front end returns a JSON-RPC error with code -32603 carrying the parse
exception text, inside a 200 response. -/
theorem c7_amended (a : AuthCfg) (auth_enabled : Bool) (ttl now : Nat)
    (cache : List CacheEntry) (tokens : String → TokenInfo)
    (errMsg : String) (authorization : Option String) :
    mcp_endpoint a auth_enabled ttl now cache tokens (.invalid errMsg) authorization
      = .rpcError none (-32603) errMsg ∧
    (mcp_endpoint a auth_enabled ttl now cache tokens (.invalid errMsg) authorization).httpStatus
      = 200 :=
  ⟨rfl, rfl⟩

/-- C3 counterexample: with the configured cache TTL of 300 a token whose
exp is 11 is validated and cached at time 10; a lookup at time 12, past the
token exp, still returns the cached claim set, so the cache entry TTL is
not the minimum of the configured TTL and the token remaining lifetime. -/
theorem c3_counterexample :
    token3.exp < 12 ∧
    (validate_jwt_token authCfg3 300 10 [] token3).1 = .ok "claimsA" ∧
    (validate_jwt_token authCfg3 300 12
        ((validate_jwt_token authCfg3 300 10 [] token3).2) token3).1 = .ok "claimsA" := by
  refine ⟨by decide, rfl, rfl⟩

/-- C3 amended: a cached validation entry lives for the fixed configured
cache TTL from its insertion, regardless of the token exp claim: any lookup
before insertion time plus TTL returns the cached claim set, including
lookups past the token expiry. -/
theorem c3_amended (a : AuthCfg) (ttl : Nat) (t : TokenInfo) (cache : List CacheEntry)
    (now0 now1 : Nat) (v : String) (c2 : List CacheEntry)
    (hmiss : cache_lookup ttl now0 cache ("jwt:" ++ t.token) = none)
    (hok : validate_jwt_token a ttl now0 cache t = (.ok v, c2))
    (hlt : now1 < now0 + ttl) :
    (validate_jwt_token a ttl now1 c2 t).1 = .ok v := by
  unfold validate_jwt_token at hok
  rw [hmiss] at hok
  cases hcore : validate_jwt_token_at a now0 t with
  | ok claims =>
    rw [hcore] at hok
    simp only [Prod.mk.injEq] at hok
    obtain ⟨hv, hc⟩ := hok
    have hv2 : claims = v := by
      cases hv
      rfl
    subst hv2
    subst hc
    unfold validate_jwt_token
    unfold cache_lookup
    simp [List.find?, hlt]
  | error e =>
    rw [hcore] at hok
    simp at hok

/-- C3 amended witness: the concrete instance of the amended claim at the
counterexample numbers. -/
theorem c3_amended_witness :
    (validate_jwt_token authCfg3 300 12 [⟨"jwt:tok3", "claimsA", 10⟩] token3).1
      = .ok "claimsA" :=
  c3_amended authCfg3 300 token3 [] 10 12 "claimsA" [⟨"jwt:tok3", "claimsA", 10⟩]
    rfl rfl (by decide)

/-- C1: the policy engine would deny the call - check_permission on the
deny rule returns the denied-by-rule verdict for myserver admin_reset -
but handle_call_tool forwards the invocation upstream unchanged: the result
is the upstream answer, no denied-by-rule error is produced, and no audit
event of type policy_violation is emitted. check_permission has no call
site on the tool path, so the tool invocation is not gated by the policy
decision. -/
theorem c1_policy_not_enforced :
    check_permission denyPolicy (fun _ _ _ => false) "anonymous"
        "mcp:myserver:admin_reset" "invoke_tool" []
      = (false, "denied by rule: deny-admin-tools") ∧
    handle_call_tool cfgC1 upC1 "myserver__admin_reset" argsC1
      = ([⟨"text", "admin reset done"⟩], [⟨"mcp_request", "invoke_tool", "success"⟩]) ∧
    (∀ ev ∈ (handle_call_tool cfgC1 upC1 "myserver__admin_reset" argsC1).2,
       ev.event_type ≠ "policy_violation") ∧
    (∀ part ∈ (handle_call_tool cfgC1 upC1 "myserver__admin_reset" argsC1).1,
       strStartsWith part.text "Error" = false) := by
  refine ⟨rfl, rfl, ?_, ?_⟩
  · intro ev hev
    rw [show (handle_call_tool cfgC1 upC1 "myserver__admin_reset" argsC1).2
        = [⟨"mcp_request", "invoke_tool", "success"⟩] from rfl] at hev
    rw [List.mem_singleton] at hev
    subst hev
    decide
  · intro part hpart
    rw [show (handle_call_tool cfgC1 upC1 "myserver__admin_reset" argsC1).1
        = [⟨"text", "admin reset done"⟩] from rfl] at hpart
    rw [List.mem_singleton] at hpart
    subst hpart
    decide

/-- C6 counterexample: instantiating the claim at server broadcast and tool
by_tag__x, the virtual name broadcast__by_tag__x is captured by the
broadcast dispatch: handle_call_tool returns the tag-broadcast argument
error with no upstream invocation and no audit event, while the
single-origin routing the claim asserts (upstream broadcast, tool
by_tag__x) would have produced the recorded upstream answer. -/
theorem c6_counterexample :
    handle_call_tool cfgC6 upC6 "broadcast__by_tag__x" argsC6
      = ([⟨"text", "Error: \x27tool_name\x27 is required for tag-based broadcast"⟩], []) ∧
    call_single cfgC6 upC6 "broadcast__by_tag__x" "broadcast" "by_tag__x" argsC6
      = ([⟨"text", "called broadcast by_tag__x"⟩],
         [⟨"mcp_request", "invoke_tool", "success"⟩]) ∧
    handle_call_tool cfgC6 upC6 "broadcast__by_tag__x" argsC6
      ≠ call_single cfgC6 upC6 "broadcast__by_tag__x" "broadcast" "by_tag__x" argsC6 :=
  ⟨rfl, rfl, by decide⟩

/-- C6 amended: for any tools/call virtual name server ++ __ ++ tool in
which the server part contains no __, does not end in _, and the full name
does not begin with broadcast__, the call is routed single-origin: the
name splits on its first __ into exactly (server, tool) and
handle_call_tool forwards to upstream server with upstream tool name tool
(tool may itself contain __). -/
theorem c6_amended (server tool : String) (cfg : MCPConfig) (up : Upstream)
    (args : ToolArguments)
    (h1 : splitFirstSep2 server.toList = none)
    (h2 : server.toList.getLast? ≠ some '_')
    (h3 : strStartsWith (server ++ "__" ++ tool) "broadcast__" = false) :
    splitFirstDunder (server ++ "__" ++ tool) = some (server, tool) ∧
    handle_call_tool cfg up (server ++ "__" ++ tool) args
      = call_single cfg up (server ++ "__" ++ tool) server tool args := by
  have hdata : (server ++ "__" ++ tool).toList = server.toList ++ '_' :: '_' :: tool.toList := by
    show (server ++ "__" ++ tool).data = server.data ++ '_' :: '_' :: tool.data
    rw [String.data_append, String.data_append, List.append_assoc]
    rfl
  have hsplit : splitFirstDunder (server ++ "__" ++ tool) = some (server, tool) := by
    unfold splitFirstDunder
    rw [hdata, splitFirstSep2_append tool.toList server.toList h1 h2]
    rfl
  refine ⟨hsplit, ?_⟩
  unfold handle_call_tool
  rw [if_neg (by rw [h3]; decide), hsplit]

/-- C6 amended witness: the amended routing at server srv and a tool that
itself contains the separator. -/
theorem c6_amended_witness :
    splitFirstDunder ("srv" ++ "__" ++ "a__b") = some ("srv", "a__b") ∧
    handle_call_tool cfgC1 upC1 ("srv" ++ "__" ++ "a__b") argsC1
      = call_single cfgC1 upC1 ("srv" ++ "__" ++ "a__b") "srv" "a__b" argsC1 :=
  c6_amended "srv" "a__b" cfgC1 upC1 argsC1 (by decide) (by decide) (by decide)

/-- C9: handle_call_tool never propagates an exception - in this embedding
it is a total function into content-part lists - and each listed failure
shape yields a single text part whose text starts with Error: a name
lacking the separator, a single-origin invocation failure (which the
not-configured and disabled upstream cases below feed), a tag broadcast
without tool_name, and a failed broadcast. -/
theorem c9_call_tool_error_shapes (cfg : MCPConfig) (up : Upstream) (name : String)
    (args : ToolArguments) :
    (splitFirstDunder name = none → strStartsWith name "broadcast__" = false →
      handle_call_tool cfg up name args
        = ([⟨"text", "Error: Invalid tool name format. Expected \x27server__tool\x27 or \x27broadcast__tool\x27, got \x27" ++ name ++ "\x27"⟩], []) ∧
      ∀ part ∈ (handle_call_tool cfg up name args).1,
        strStartsWith part.text "Error:" = true) ∧
    (∀ server_name tool_name e,
      strStartsWith name "broadcast__" = false →
      splitFirstDunder name = some (server_name, tool_name) →
      (invoke_tool cfg up server_name tool_name args.asParams).1 = .error e →
      handle_call_tool cfg up name args
        = ([⟨"text", "Error: Failed to call tool " ++ name ++ ": " ++ e⟩],
           (invoke_tool cfg up server_name tool_name args.asParams).2) ∧
      strStartsWith ("Error: Failed to call tool " ++ name ++ ": " ++ e) "Error:" = true) ∧
    (∀ server_name tool_name,
      (get_server cfg server_name = none ∨
        ∃ sc, get_server cfg server_name = some sc ∧ sc.enabled = false) →
      ∃ e, (invoke_tool cfg up server_name tool_name args.asParams).1 = .error e ∧
        strStartsWith e "Failed to invoke tool:" = true) ∧
    (strStartsWith name "broadcast__" = true →
     strStartsWith name "broadcast__by_tag__" = true →
     args.tool_name.getD "" = "" →
      handle_call_tool cfg up name args
        = ([⟨"text", "Error: \x27tool_name\x27 is required for tag-based broadcast"⟩], [])) ∧
    (∀ e evs,
      strStartsWith name "broadcast__" = true →
      strStartsWith name "broadcast__by_tag__" = false →
      invoke_tool_broadcast cfg up (pyReplaceEmpty name "broadcast__") args.arguments
          args.servers none = (.error e, evs) →
      handle_call_tool cfg up name args
        = ([⟨"text", "Error: Broadcast failed for " ++ name ++ ": " ++ e⟩], evs) ∧
      strStartsWith ("Error: Broadcast failed for " ++ name ++ ": " ++ e) "Error:" = true) := by
  refine ⟨?_, ?_, ?_, ?_, ?_⟩
  · intro hnone hb
    have heq : handle_call_tool cfg up name args
        = ([⟨"text", "Error: Invalid tool name format. Expected \x27server__tool\x27 or \x27broadcast__tool\x27, got \x27" ++ name ++ "\x27"⟩], []) := by
      unfold handle_call_tool
      rw [if_neg (by rw [hb]; decide), hnone]
    refine ⟨heq, ?_⟩
    intro part hpart
    rw [heq] at hpart
    rw [List.mem_singleton] at hpart
    subst hpart
    exact strStartsWith_append _ "\x27" _
      (strStartsWith_append _ name _ (by decide))
  · intro server_name tool_name e hb hsome he
    have hroute : handle_call_tool cfg up name args
        = call_single cfg up name server_name tool_name args := by
      unfold handle_call_tool
      rw [if_neg (by rw [hb]; decide), hsome]
    cases hfull : invoke_tool cfg up server_name tool_name args.asParams with
    | mk fst snd =>
      rw [hfull] at he
      simp only at he
      subst he
      constructor
      · rw [hroute]
        unfold call_single
        rw [hfull]
      · exact strStartsWith_append _ e _
          (strStartsWith_append _ ": " _
            (strStartsWith_append _ name _ (by decide)))
  · intro server_name tool_name hbad
    cases hbad with
    | inl hnone =>
      exact ⟨_, invoke_tool_error_of_not_configured cfg up server_name tool_name
          args.asParams hnone,
        strStartsWith_append _ "\x27 not configured" _
          (strStartsWith_append _ server_name _ (by decide))⟩
    | inr hdis =>
      obtain ⟨sc, hs, hd⟩ := hdis
      exact ⟨_, invoke_tool_error_of_disabled cfg up server_name tool_name
          args.asParams sc hs hd,
        strStartsWith_append _ "\x27 is disabled" _
          (strStartsWith_append _ server_name _ (by decide))⟩
  · intro hb htag hempty
    unfold handle_call_tool handle_broadcast_tool
    rw [if_pos hb, if_pos htag, if_pos hempty]
  · intro e evs hb htag hbc
    constructor
    · unfold handle_call_tool handle_broadcast_tool
      rw [if_pos hb, if_neg (by rw [htag]; decide), hbc]
    · exact strStartsWith_append _ e _
        (strStartsWith_append _ ": " _
          (strStartsWith_append _ name _ (by decide)))

/-- C9 witness: the malformed-name shape at a concrete call. -/
theorem c9_witness :
    handle_call_tool [] upC1 "plain" argsC1
      = ([⟨"text", "Error: Invalid tool name format. Expected \x27server__tool\x27 or \x27broadcast__tool\x27, got \x27" ++ "plain" ++ "\x27"⟩], []) ∧
    ∀ part ∈ (handle_call_tool [] upC1 "plain" argsC1).1,
      strStartsWith part.text "Error:" = true :=
  (c9_call_tool_error_shapes [] upC1 "plain" argsC1).1 (by decide) (by decide)

/-- C5: the claimed aggregate is never returned by the program. The
closing audit call of invoke_tool_broadcast passes the keyword metadata,
which log_mcp_request does not accept (and omits its required mcp_server
argument), so after the fan-out loop finishes, every broadcast over a
nonempty target set raises TypeError instead of returning the
results/errors aggregate; a broadcast over an empty selection raises
ValueError. No broadcast invocation runs to completion. At the concrete
failing input - explicit targets [a, b] where a succeeds and b fails -
the gather loop itself does finish (both attempts run and are audited,
and the loop dicts hold the outcomes), and the function then returns the
TypeError of the audit call. -/
theorem c5_broadcast_never_completes :
    (∀ (cfg : MCPConfig) (up : Upstream) (tool_name : String) (parameters : Payload)
       (mcp_servers : Option (List String)) (tags : Option (List String))
       (r : BroadcastResult) (evs : List AuditEvent),
       invoke_tool_broadcast cfg up tool_name parameters mcp_servers tags ≠ (.ok r, evs)) ∧
    (invoke_tool_broadcast cfgC5 upC5 "t" "" (some ["a", "b"]) none).1
      = .error broadcastAuditTypeError ∧
    classifyFold (fun s => (invoke_tool cfgC5 upC5 s "t" "").1) ["a", "b"]
      = ([("a", "ra")], [("b", "Failed to invoke tool: boom")]) ∧
    (invoke_tool_broadcast cfgC5 upC5 "t" "" (some ["a", "b"]) none).2
      = [⟨"mcp_request", "invoke_tool", "success"⟩,
         ⟨"mcp_request", "invoke_tool", "error"⟩] := by
  refine ⟨?_, rfl, rfl, rfl⟩
  intro cfg up tool_name parameters mcp_servers tags r evs h
  unfold invoke_tool_broadcast at h
  by_cases hemp : ((broadcastTargets cfg tool_name mcp_servers tags).isEmpty : Prop)
  · rw [if_pos hemp, Prod.mk.injEq] at h
    exact absurd h.1 (by simp)
  · rw [if_neg hemp, Prod.mk.injEq] at h
    exact absurd h.1 (by simp)

/-- C8 counterexample: an explicit server list naming the disabled server
d is used verbatim - d stays in the target set rather than being
excluded - and d is attempted: invoke_tool runs for it, fails with the
disabled error, records an mcp_request error audit event, and the fan-out
loop files d in its errors dict; the broadcast then raises the TypeError
of its closing audit call. -/
theorem c8_counterexample :
    broadcastTargets cfgC8 "t" (some ["d"]) none = ["d"] ∧
    (invoke_tool cfgC8 upC1 "d" "t" "").1
      = .error "Failed to invoke tool: MCP server \x27d\x27 is disabled" ∧
    classifyFold (fun s => (invoke_tool cfgC8 upC1 s "t" "").1) ["d"]
      = ([], [("d", "Failed to invoke tool: MCP server \x27d\x27 is disabled")]) ∧
    (invoke_tool_broadcast cfgC8 upC1 "t" "" (some ["d"]) none).2
      = [⟨"mcp_request", "invoke_tool", "error"⟩] :=
  ⟨rfl, rfl, rfl, rfl⟩

/-- C8 amended: a nonempty explicit servers list is the target set
verbatim - no filtering to enabled upstreams happens - and every listed
server that is unconfigured or disabled is attempted: its invoke_tool
call fails and the fan-out loop files it in the errors dict; the
broadcast itself then raises the TypeError of its closing audit call
instead of returning the aggregate. -/
theorem c8_amended (cfg : MCPConfig) (up : Upstream) (tool_name : String)
    (parameters : Payload) (s : String) (ss : List String) (tags : Option (List String)) :
    broadcastTargets cfg tool_name (some (s :: ss)) tags = s :: ss ∧
    (∀ d, d ∈ s :: ss →
      (get_server cfg d = none ∨ ∃ sc, get_server cfg d = some sc ∧ sc.enabled = false) →
      ∃ e, (invoke_tool cfg up d tool_name parameters).1 = .error e ∧
        d ∈ keys (classifyFold (fun x => (invoke_tool cfg up x tool_name parameters).1)
                    (s :: ss)).2) ∧
    (invoke_tool_broadcast cfg up tool_name parameters (some (s :: ss)) tags).1
      = .error broadcastAuditTypeError := by
  have htgt : broadcastTargets cfg tool_name (some (s :: ss)) tags = s :: ss := rfl
  obtain ⟨hn1, hn2, hm1, hm2⟩ := classifyFold_spec
    (fun x => (invoke_tool cfg up x tool_name parameters).1) (s :: ss)
  refine ⟨htgt, ?_, ?_⟩
  · intro d hd hbad
    have hfail : ∃ e, (invoke_tool cfg up d tool_name parameters).1 = .error e := by
      cases hbad with
      | inl hnone =>
        exact ⟨_, invoke_tool_error_of_not_configured cfg up d tool_name parameters hnone⟩
      | inr hdis =>
        obtain ⟨sc, hs, hdd⟩ := hdis
        exact ⟨_, invoke_tool_error_of_disabled cfg up d tool_name parameters sc hs hdd⟩
    obtain ⟨e, he⟩ := hfail
    refine ⟨e, he, (hm2 d).mpr ⟨hd, ?_⟩⟩
    rw [he]
    rfl
  · unfold invoke_tool_broadcast
    rw [htgt, if_neg (by simp)]

/-- C8 amended witness: the amended behaviour at the concrete disabled
server d of the counterexample. -/
theorem c8_amended_witness :
    broadcastTargets cfgC8 "t" (some ["d"]) none = ["d"] ∧
    (∃ e, (invoke_tool cfgC8 upC1 "d" "t" "").1 = .error e ∧
      "d" ∈ keys (classifyFold (fun x => (invoke_tool cfgC8 upC1 x "t" "").1) ["d"]).2) ∧
    (invoke_tool_broadcast cfgC8 upC1 "t" "" (some ["d"]) none).1
      = .error broadcastAuditTypeError :=
  ⟨(c8_amended cfgC8 upC1 "t" "" "d" [] none).1,
   (c8_amended cfgC8 upC1 "t" "" "d" [] none).2.1 "d" (by decide)
     (Or.inr ⟨⟨"http://d", false, [], ["t"]⟩, rfl, rfl⟩),
   (c8_amended cfgC8 upC1 "t" "" "d" [] none).2.2⟩

end SecureMcpGateway
